import Mathlib

/-!
Verification of the KillrVideo typed tabular codec.

This file gives a shallow embedding of the CSV encoder
(`CSVWriter._format_value` / `CSVWriter.write_table` in
`data-generator/src/csv_writer.py`), the declared-type decoder
(`CassandraLoader.parse_csv_value` in `loaders/oss-cassandra/load_with_python.py`),
the structural-sniffing decoder (`CollectionLoader.parse_row` in
`loaders/astra-collections/load_to_collections.py`), the standalone parsers
(`parse_set`, `parse_map` in `loaders/astra-tables/load_data_cql.py`) and the
referential-integrity checker (`validate_foreign_keys` in
`data-generator/scripts/validate_data.py`).

Modelling conventions:
* Python floats are modelled as exact decimal numbers `Dec` (an integer
  mantissa over a power of ten).  `str(float)` / `repr(float)` is modelled by
  decimal printing; the representative values used in the theorems are
  decimal-exact, where Python printing agrees with this model.
* Python strings are modelled as Lean strings; `str.lower`, `str.isdigit`
  and `str.strip` are modelled over ASCII (all inputs appearing in the
  claims are ASCII).
* Python exceptions are modelled with `Except PyErr`; a function that can
  raise returns `Except`, a function that cannot returns plain values.
-/

namespace KV

/-- Python exceptions relevant to the codec. -/
inductive PyErr where
  | valueError (msg : String)
  | typeError (msg : String)
  | keyError (msg : String)
  deriving DecidableEq

/-- ASCII model of Python `str.lower` on one character. -/
def pyToLowerChar (c : Char) : Char :=
  if 'A' ≤ c ∧ c ≤ 'Z' then Char.ofNat (c.toNat + 32) else c

/-- ASCII model of Python `str.lower`. -/
def pyLower (s : String) : String := ⟨s.data.map pyToLowerChar⟩

/-- ASCII decimal digit, model of the per-character test behind `str.isdigit`. -/
def pyIsDigitChar (c : Char) : Bool :=
  ['0', '1', '2', '3', '4', '5', '6', '7', '8', '9'].contains c

/-- Model of Python `str.isdigit`: non-empty and all digits. -/
def pyIsDigitStr (l : List Char) : Bool := !l.isEmpty && l.all pyIsDigitChar

/-- ASCII whitespace stripped by Python `str.strip()`. -/
def pyIsSpaceChar (c : Char) : Bool :=
  c = ' ' || c = '\t' || c = '\n' || c = '\r' || c = '\x0b' || c = '\x0c'

/-- Hexadecimal digit test (for `UUID(...)`). -/
def pyIsHexChar (c : Char) : Bool :=
  pyIsDigitChar c || ('a' ≤ c && c ≤ 'f') || ('A' ≤ c && c ≤ 'F')

/-- Python `str.strip()` on an exploded string. -/
def pyStripL (l : List Char) : List Char :=
  (l.dropWhile pyIsSpaceChar).rdropWhile pyIsSpaceChar

/-- Python `str.strip()`. -/
def pyStrip (s : String) : String := ⟨pyStripL s.data⟩

/-- Python `str.strip(cs)` for an explicit character set. -/
def pyStripAnyL (cs : List Char) (l : List Char) : List Char :=
  (l.dropWhile (cs.contains ·)).rdropWhile (cs.contains ·)

/-- Python `str.strip(c)` for one character. -/
def pyStripChar (c : Char) (s : String) : String := ⟨pyStripAnyL [c] s.data⟩

/-- Digits of a decimal numeral, most significant first, to a number. -/
def digitsToNat (l : List Char) : Nat :=
  l.foldl (fun acc c => acc * 10 + (c.toNat - '0'.toNat)) 0

/-- Zero-padded decimal rendering of a natural number, model of `%0Nd`. -/
def padZeros (width n : Nat) : String :=
  let s := toString n
  ⟨List.replicate (width - s.length) '0' ++ s.data⟩

/-- An exact decimal number `m / 10 ^ e`, the model of a Python float whose
value is decimal-exact (all values appearing in the claims are). -/
structure Dec where
  m : Int
  e : Nat
  deriving DecidableEq

/-- Numeric equality of decimals (Python `==` on numbers). -/
def Dec.numEq (a b : Dec) : Bool := a.m * (10 : Int) ^ b.e == b.m * (10 : Int) ^ a.e

/-- Model of `repr(float)` (also `str(float)`) for decimal-exact values in
their normalized form: a sign, the integer digits, a point, the fraction
digits, with integral floats printed with a trailing `.0`. -/
def Dec.repr (d : Dec) : String :=
  let s0 := toString d.m.natAbs
  let s : List Char :=
    if s0.length ≤ d.e then List.replicate (d.e + 1 - s0.length) '0' ++ s0.data else s0.data
  let ip : List Char := s.take (s.length - d.e)
  let fp : List Char := if d.e = 0 then ['0'] else s.drop (s.length - d.e)
  (if d.m < 0 then "-" else "") ++ ⟨ip⟩ ++ "." ++ ⟨fp⟩

/-- Parse the digit/point part of a float literal: returns mantissa digits
value and the number of fraction digits, or `none`. -/
def parseDecBody (l : List Char) : Option (Nat × Nat × List Char) :=
  let ip := l.takeWhile pyIsDigitChar
  let rest := l.drop ip.length
  match rest with
  | '.' :: r2 =>
      let fp := r2.takeWhile pyIsDigitChar
      let rest2 := r2.drop fp.length
      if ip.isEmpty && fp.isEmpty then none
      else some (digitsToNat (ip ++ fp), fp.length, rest2)
  | _ =>
      if ip.isEmpty then none else some (digitsToNat ip, 0, rest)

/-- Model of Python `float(str)` for finite decimal literals with an optional
exponent (the special values `inf`/`nan` and digit underscores are outside
the model; no claim involves them). -/
def pyFloatOfStringL (l0 : List Char) : Option Dec :=
  let l := pyStripL l0
  let (sgn, l) : Int × List Char :=
    match l with
    | '+' :: r => (1, r)
    | '-' :: r => (-1, r)
    | r => (1, r)
  match parseDecBody l with
  | none => none
  | some (mant, fdigits, rest) =>
    match rest with
    | [] => some ⟨sgn * mant, fdigits⟩
    | e :: r3 =>
      if e = 'e' ∨ e = 'E' then
        let (esgn, r4) : Int × List Char :=
          match r3 with
          | '+' :: r => (1, r)
          | '-' :: r => (-1, r)
          | r => (1, r)
        let ed := r4.takeWhile pyIsDigitChar
        if ed.isEmpty ∨ ¬(r4.drop ed.length).isEmpty then none
        else
          let k : Int := esgn * digitsToNat ed
          let shift : Int := k - fdigits
          if 0 ≤ shift then some ⟨sgn * mant * (10 : Int) ^ shift.toNat, 0⟩
          else some ⟨sgn * mant, (-shift).toNat⟩
      else none

/-- Model of Python `float(str)`. -/
def pyFloatOfString (s : String) : Option Dec := pyFloatOfStringL s.data

/-- Model of Python `int(str)`: optional surrounding whitespace, an optional
sign and a non-empty run of digits. -/
def pyIntOfStringL (l0 : List Char) : Option Int :=
  let l := pyStripL l0
  let (sgn, l) : Int × List Char :=
    match l with
    | '+' :: r => (1, r)
    | '-' :: r => (-1, r)
    | r => (1, r)
  if l.isEmpty ∨ ¬l.all pyIsDigitChar then none
  else some (sgn * digitsToNat l)

/-- Model of Python `int(str)`. -/
def pyIntOfString (s : String) : Option Int := pyIntOfStringL s.data

/-- Is the first list a prefix of the second?  (Reduces when the first list
is exhausted, regardless of the second.) -/
def startsWithL : List Char → List Char → Bool
  | [], _ => true
  | _ :: _, [] => false
  | a :: as, b :: bs => a == b && startsWithL as bs

/-- Python `str.replace(pat, rep)` on exploded strings (all non-overlapping
occurrences, left to right), fuelled by the input length; the patterns used
in this repository are non-empty, so the fuel never runs out. -/
def replaceFuel (pat rep : List Char) : Nat → List Char → List Char
  | 0, l => l
  | fuel + 1, l =>
    match l with
    | [] => []
    | c :: rest =>
      if startsWithL pat l then rep ++ replaceFuel pat rep fuel (l.drop pat.length)
      else c :: replaceFuel pat rep fuel rest

/-- Python `str.replace`. -/
def pyReplace (s pat rep : String) : String :=
  ⟨replaceFuel pat.data rep.data s.data.length s.data⟩

/-- Python `str.split(sep)` for a non-empty separator, fuelled. -/
def pySplitFuel (sep : List Char) : Nat → List Char → List Char → List (List Char)
  | 0, cur, l => [cur ++ l]
  | fuel + 1, cur, l =>
    match l with
    | [] => [cur]
    | c :: rest =>
      if startsWithL sep l then cur :: pySplitFuel sep fuel [] (l.drop sep.length)
      else pySplitFuel sep fuel (cur ++ [c]) rest

/-- Python `str.split(sep)`. -/
def pySplit (s sep : String) : List String :=
  (pySplitFuel sep.data s.data.length [] s.data).map (fun l => ⟨l⟩)

/-- Python `str.startswith`. -/
def pyStartsWith (s p : String) : Bool := startsWithL p.data s.data

/-- Python `str.endswith`. -/
def pyEndsWith (s p : String) : Bool := startsWithL p.data.reverse s.data.reverse

/-- A Python `datetime.datetime`: calendar fields, microseconds and an
optional fixed UTC offset in minutes (`None` = naive). -/
structure PyDateTime where
  year : Nat
  month : Nat
  day : Nat
  hour : Nat
  minute : Nat
  second : Nat
  usec : Nat
  tz : Option Int
  deriving DecidableEq

/-- Is the year a Gregorian leap year? -/
def isLeapYear (y : Nat) : Bool := (y % 4 = 0 && y % 100 ≠ 0) || y % 400 = 0

/-- Cumulative day count before month `m` (1-based). -/
def daysBeforeMonth (m : Nat) (leap : Bool) : Nat :=
  let base := [0, 31, 59, 90, 120, 151, 181, 212, 243, 273, 304, 334].getD (m - 1) 0
  if leap && m > 2 then base + 1 else base

/-- Number of days in month `m` of year `y`. -/
def daysInMonth (y m : Nat) : Nat :=
  if m = 2 then (if isLeapYear y then 29 else 28)
  else if m ∈ [4, 6, 9, 11] then 30 else 31

/-- Days from 0001-01-01 (proleptic Gregorian), day 0 = 0001-01-01. -/
def daysFromCivil (y m d : Nat) : Nat :=
  365 * (y - 1) + (y - 1) / 4 - (y - 1) / 100 + (y - 1) / 400
    + daysBeforeMonth m (isLeapYear y) + (d - 1)

/-- Absolute instant in microseconds given an offset in minutes. -/
def PyDateTime.instant (dt : PyDateTime) (off : Int) : Int :=
  ((daysFromCivil dt.year dt.month dt.day * 86400
      + dt.hour * 3600 + dt.minute * 60 + dt.second : Nat) : Int) * 1000000
    + dt.usec - off * 60000000

/-- Python `datetime.__eq__`: naive datetimes compare fieldwise, aware
datetimes compare as instants, and a naive datetime never equals an aware
one. -/
def PyDateTime.pyBeq (a b : PyDateTime) : Bool :=
  match a.tz, b.tz with
  | none, none =>
      a.year == b.year && a.month == b.month && a.day == b.day &&
      a.hour == b.hour && a.minute == b.minute && a.second == b.second &&
      a.usec == b.usec
  | some p, some q => a.instant p == b.instant q
  | _, _ => false

/-- `value.strftime('%Y-%m-%dT%H:%M:%S.%f')[:-3] + 'Z'` — the timestamp
encoding of `CSVWriter._format_value`. -/
def strftimeTs (dt : PyDateTime) : String :=
  padZeros 4 dt.year ++ "-" ++ padZeros 2 dt.month ++ "-" ++ padZeros 2 dt.day
    ++ "T" ++ padZeros 2 dt.hour ++ ":" ++ padZeros 2 dt.minute ++ ":"
    ++ padZeros 2 dt.second ++ "." ++ ⟨(padZeros 6 dt.usec).data.take 3⟩ ++ "Z"

/-- `value.strftime('%Y-%m-%d')` — the date encoding. -/
def strftimeDate (y m d : Nat) : String :=
  padZeros 4 y ++ "-" ++ padZeros 2 m ++ "-" ++ padZeros 2 d

/-- Read exactly `n` decimal digits. -/
def readDigits (n : Nat) (l : List Char) : Option (Nat × List Char) :=
  let ds := l.take n
  if ds.length = n ∧ ds.all pyIsDigitChar then some (digitsToNat ds, l.drop n) else none

/-- Expect one given character. -/
def expectChar (c : Char) (l : List Char) : Option (List Char) :=
  match l with
  | c0 :: r => if c0 = c then some r else none
  | [] => none

/-- Parse `HH:MM[:SS[.fff|.ffffff]]`, returning hour, minute, second,
microseconds and the rest. -/
def parseIsoTime (l : List Char) : Option (Nat × Nat × Nat × Nat × List Char) := do
  let (hh, l) ← readDigits 2 l
  let l ← expectChar ':' l
  let (mm, l) ← readDigits 2 l
  if hh ≥ 24 ∨ mm ≥ 60 then none
  else
    match expectChar ':' l with
    | none => some (hh, mm, 0, 0, l)
    | some l2 => do
      let (ss, l3) ← readDigits 2 l2
      if ss ≥ 60 then none
      else
        match expectChar '.' l3 with
        | none => some (hh, mm, ss, 0, l3)
        | some l4 =>
          let ds := l4.takeWhile pyIsDigitChar
          if ds.length = 3 then some (hh, mm, ss, digitsToNat ds * 1000, l4.drop 3)
          else if ds.length = 6 then some (hh, mm, ss, digitsToNat ds, l4.drop 6)
          else none

/-- Model of Python `datetime.fromisoformat` on the formats this repository
produces: `YYYY-MM-DD[<sep>HH:MM[:SS[.fff|.ffffff]][±HH:MM]]`. -/
def pyFromIso (s : String) : Option PyDateTime := do
  let l := s.data
  let (y, l) ← readDigits 4 l
  let l ← expectChar '-' l
  let (mo, l) ← readDigits 2 l
  let l ← expectChar '-' l
  let (d, l) ← readDigits 2 l
  if y = 0 ∨ mo = 0 ∨ mo > 12 ∨ d = 0 ∨ d > daysInMonth y mo then none
  else
    match l with
    | [] => some ⟨y, mo, d, 0, 0, 0, 0, none⟩
    | _sep :: l1 => do
      let (hh, mm, ss, us, l2) ← parseIsoTime l1
      match l2 with
      | [] => some ⟨y, mo, d, hh, mm, ss, us, none⟩
      | c :: l3 =>
        if c = '+' ∨ c = '-' then do
          let (oh, l4) ← readDigits 2 l3
          let l5 ← expectChar ':' l4
          let (om, l6) ← readDigits 2 l5
          if ¬l6.isEmpty then none
          else
            let off : Int := (if c = '-' then -1 else 1) * (oh * 60 + om)
            some ⟨y, mo, d, hh, mm, ss, us, some off⟩
        else none

/-- A dynamically typed Python value as it occurs at the codec boundary. -/
inductive Value where
  | none
  | bool (b : Bool)
  | int (n : Int)
  | float (d : Dec)
  | str (s : String)
  | uuid (s : String)
  | datetime (dt : PyDateTime)
  | date (y m d : Nat)
  | list (xs : List Value)
  | set (xs : List Value)
  | dict (xs : List (String × Value))

/-- Numeric view of a value: Python compares `bool`, `int` and `float`
numerically with each other. -/
def Value.numVal : Value → Option Dec
  | .bool b => some ⟨if b then 1 else 0, 0⟩
  | .int n => some ⟨n, 0⟩
  | .float d => some d
  | _ => Option.none

/-- Python `==` on hashable scalar values (`None`, booleans, numbers,
strings) — the only element kinds that can reach `set()` in `parse_set`,
since unhashable elements raise `TypeError` first.  Numbers compare
numerically, as in Python. -/
def Value.scalarEq (a b : Value) : Bool :=
  match a.numVal, b.numVal with
  | some x, some y => x.numEq y
  | _, _ =>
    match a, b with
    | .none, .none => true
    | .str x, .str y => x == y
    | _, _ => false

/-- Python truthiness of a codec value (`bool(value)`). -/
def Value.truthy : Value → Bool
  | .none => false
  | .bool b => b
  | .int n => n != 0
  | .float d => d.m != 0
  | .str s => s != ""
  | .uuid _ => true
  | .datetime _ => true
  | .date _ _ _ => true
  | .list xs => !xs.isEmpty
  | .set xs => !xs.isEmpty
  | .dict xs => !xs.isEmpty

mutual

/-- Model of Python `str(value)` for codec values, with structural fuel
bounding the container nesting depth (`pyStr` supplies a bound far beyond
any value this repository handles).  String escaping inside `repr` of
nested strings is simplified to plain quoting; no claim depends on nested
quoting. -/
def pyStrFuel : Nat → Value → String
  | 0, _ => ""
  | fuel + 1, v =>
    match v with
    | .none => "None"
    | .bool b => if b then "True" else "False"
    | .int n => toString n
    | .float d => d.repr
    | .str s => s
    | .uuid s => s
    | .datetime dt =>
        strftimeDate dt.year dt.month dt.day ++ " " ++ padZeros 2 dt.hour ++ ":"
          ++ padZeros 2 dt.minute ++ ":" ++ padZeros 2 dt.second
          ++ (if dt.usec = 0 then "" else "." ++ padZeros 6 dt.usec)
    | .date y m d => strftimeDate y m d
    | .list xs => "[" ++ String.intercalate ", " (pyReprListFuel fuel xs) ++ "]"
    | .set xs => "\x7b" ++ String.intercalate ", " (pyReprListFuel fuel xs) ++ "\x7d"
    | .dict xs => "\x7b" ++ String.intercalate ", " (pyReprPairsFuel fuel xs) ++ "\x7d"

/-- Model of Python `repr(value)` (as used by `str` on containers). -/
def pyReprVFuel : Nat → Value → String
  | 0, _ => ""
  | fuel + 1, v =>
    match v with
    | .str s => "\x27" ++ s ++ "\x27"
    | .uuid s => "UUID(\x27" ++ s ++ "\x27)"
    | v => pyStrFuel fuel v

/-- `repr` over a list of elements. -/
def pyReprListFuel : Nat → List Value → List String
  | 0, _ => []
  | fuel + 1, l =>
    match l with
    | [] => []
    | x :: xs => pyReprVFuel fuel x :: pyReprListFuel fuel xs

/-- `repr` over dict items. -/
def pyReprPairsFuel : Nat → List (String × Value) → List String
  | 0, _ => []
  | fuel + 1, l =>
    match l with
    | [] => []
    | (k, v) :: xs =>
        ("\x27" ++ k ++ "\x27: " ++ pyReprVFuel fuel v) :: pyReprPairsFuel fuel xs

end

/-- Python `str(value)`. -/
def pyStr (v : Value) : String := pyStrFuel 1000000 v

/-- JSON string escaping (`json.dumps` on an ASCII string). -/
def jsonEscapeChar (c : Char) : String :=
  if c = '"' then "\\\""
  else if c = '\\' then "\\\\"
  else if c = '\n' then "\\n"
  else if c = '\t' then "\\t"
  else if c = '\r' then "\\r"
  else if c.toNat < 32 then "\\u" ++ padZeros 4 c.toNat
  else String.singleton c

/-- JSON escaping of a whole string. -/
def jsonEscape (s : String) : String := String.join (s.data.map jsonEscapeChar)

mutual

/-- Model of `json.dumps` with default separators (`", "` and `": "`).
Values with no JSON representation (UUID objects, datetimes, sets) raise
`TypeError`, as in Python. -/
def jsonDumps : Value → Except PyErr String
  | .none => .ok "null"
  | .bool b => .ok (if b then "true" else "false")
  | .int n => .ok (toString n)
  | .float d => .ok d.repr
  | .str s => .ok ("\"" ++ jsonEscape s ++ "\"")
  | .list xs => do
      let parts ← jsonDumpsList xs
      .ok ("[" ++ String.intercalate ", " parts ++ "]")
  | .dict xs => do
      let parts ← jsonDumpsPairs xs
      .ok ("\x7b" ++ String.intercalate ", " parts ++ "\x7d")
  | _ => .error (.typeError "Object is not JSON serializable")

/-- `json.dumps` over array elements. -/
def jsonDumpsList : List Value → Except PyErr (List String)
  | [] => .ok []
  | x :: xs => do
      let s ← jsonDumps x
      let rest ← jsonDumpsList xs
      .ok (s :: rest)

/-- `json.dumps` over object items. -/
def jsonDumpsPairs : List (String × Value) → Except PyErr (List String)
  | [] => .ok []
  | (k, v) :: xs => do
      let s ← jsonDumps v
      let rest ← jsonDumpsPairs xs
      .ok (("\"" ++ jsonEscape k ++ "\": " ++ s) :: rest)

end

/-- Skip JSON whitespace. -/
def jsonSkipWs (l : List Char) : List Char :=
  l.dropWhile (fun c => c = ' ' ∨ c = '\t' ∨ c = '\n' ∨ c = '\r')

/-- Parse a JSON string body after the opening quote (fuelled). -/
def jsonParseStr : Nat → List Char → Option (String × List Char)
  | 0, _ => Option.none
  | _, [] => Option.none
  | fuel + 1, c :: rest =>
    if c = '"' then some ("", rest)
    else if c = '\\' then
      match rest with
      | [] => Option.none
      | e :: rest2 =>
        let dec : Option (Char × List Char) :=
          if e = '"' then some ('"', rest2)
          else if e = '\\' then some ('\\', rest2)
          else if e = '/' then some ('/', rest2)
          else if e = 'n' then some ('\n', rest2)
          else if e = 't' then some ('\t', rest2)
          else if e = 'r' then some ('\r', rest2)
          else if e = 'b' then some ('\x08', rest2)
          else if e = 'f' then some ('\x0c', rest2)
          else Option.none
        match dec with
        | some (ch, rest3) => do
            let (s, r) ← jsonParseStr fuel rest3
            some (String.singleton ch ++ s, r)
        | Option.none => Option.none
    else do
      let (s, r) ← jsonParseStr fuel rest
      some (String.singleton c ++ s, r)

/-- Parse a JSON number. -/
def jsonParseNum (l : List Char) : Option (Value × List Char) :=
  let (sgn, l1) : Int × List Char := match l with | '-' :: r => (-1, r) | r => (1, r)
  let ip := l1.takeWhile pyIsDigitChar
  if ip.isEmpty then Option.none
  else
    let rest := l1.drop ip.length
    match rest with
    | '.' :: r2 =>
        let fp := r2.takeWhile pyIsDigitChar
        if fp.isEmpty then Option.none
        else some (.float ⟨sgn * digitsToNat (ip ++ fp), fp.length⟩, r2.drop fp.length)
    | _ => some (.int (sgn * digitsToNat ip), rest)

mutual

/-- Fuelled recursive-descent model of `json.loads` (value grammar;
exponents in numbers are not needed by any claim and are unsupported). -/
def jsonParseVal : Nat → List Char → Option (Value × List Char)
  | 0, _ => Option.none
  | fuel + 1, l =>
    match jsonSkipWs l with
    | 'n' :: 'u' :: 'l' :: 'l' :: r => some (.none, r)
    | 't' :: 'r' :: 'u' :: 'e' :: r => some (.bool true, r)
    | 'f' :: 'a' :: 'l' :: 's' :: 'e' :: r => some (.bool false, r)
    | '"' :: r => do
        let (s, r2) ← jsonParseStr (fuel + 1) r
        some (.str s, r2)
    | '[' :: r =>
        (match jsonSkipWs r with
         | ']' :: r2 => some (.list [], r2)
         | r2 => do
             let (xs, r3) ← jsonParseArr fuel r2
             some (.list xs, r3))
    | '\x7b' :: r =>
        (match jsonSkipWs r with
         | '\x7d' :: r2 => some (.dict [], r2)
         | r2 => do
             let (xs, r3) ← jsonParseObj fuel r2
             some (.dict xs, r3))
    | l2 => jsonParseNum l2

/-- Array elements after the first non-`]` position. -/
def jsonParseArr : Nat → List Char → Option (List Value × List Char)
  | 0, _ => Option.none
  | fuel + 1, l => do
    let (v, r) ← jsonParseVal fuel l
    match jsonSkipWs r with
    | ',' :: r2 => do
        let (xs, r3) ← jsonParseArr fuel r2
        some (v :: xs, r3)
    | ']' :: r2 => some ([v], r2)
    | _ => Option.none

/-- Object members after the first non-`}` position. -/
def jsonParseObj : Nat → List Char → Option (List (String × Value) × List Char)
  | 0, _ => Option.none
  | fuel + 1, l =>
    match jsonSkipWs l with
    | '"' :: r => do
        let (k, r2) ← jsonParseStr fuel r
        match jsonSkipWs r2 with
        | ':' :: r3 => do
            let (v, r4) ← jsonParseVal fuel r3
            match jsonSkipWs r4 with
            | ',' :: r5 => do
                let (xs, r6) ← jsonParseObj fuel r5
                some ((k, v) :: xs, r6)
            | '\x7d' :: r5 => some ([(k, v)], r5)
            | _ => Option.none
        | _ => Option.none
    | _ => Option.none

end

/-- Model of Python `json.loads`: the whole input must be one JSON value. -/
def jsonLoads (s : String) : Option Value :=
  match jsonParseVal (s.length + 1) s.data with
  | some (v, rest) => if (jsonSkipWs rest).isEmpty then some v else Option.none
  | Option.none => Option.none

/-- One character of the text-normalization replacements in
`CSVWriter._format_value`: newlines, carriage returns and tabs become
spaces, double quotes become single quotes. -/
def charNorm (c : Char) : Char :=
  if c = '\n' ∨ c = '\r' ∨ c = '\t' then ' '
  else if c = '"' then '\x27'
  else c

/-- One pass of `text.replace('  ', ' ')`: left-to-right, non-overlapping. -/
def collapseStep : List Char → List Char
  | [] => []
  | [c] => [c]
  | c1 :: c2 :: rest =>
      if c1 = ' ' ∧ c2 = ' ' then ' ' :: collapseStep rest
      else c1 :: collapseStep (c2 :: rest)

/-- Does the text contain two consecutive spaces (`'  ' in text`)? -/
def hasDbl : List Char → Bool
  | c1 :: c2 :: rest => (c1 = ' ' && c2 = ' ') || hasDbl (c2 :: rest)
  | _ => false

/-- The `while '  ' in text:` loop, fuelled; each pass shortens the text, so
`length` fuel suffices. -/
def collapseFuel : Nat → List Char → List Char
  | 0, l => l
  | fuel + 1, l => if hasDbl l then collapseFuel fuel (collapseStep l) else l

/-- Whole-text space collapsing. -/
def collapseAll (l : List Char) : List Char := collapseFuel l.length l

/-- The text branch of `CSVWriter._format_value`: replace newlines, carriage
returns and tabs by spaces, double quotes by single quotes, collapse runs of
spaces, then `strip()`. -/
def textNormalize (s : String) : String :=
  ⟨pyStripL (collapseAll (s.data.map charNorm))⟩

/-- Model of Python `int(value)` on codec values (truncation toward zero for
floats, parse for strings, `TypeError` for containers). -/
def pyIntCoerce : Value → Except PyErr Int
  | .bool b => .ok (if b then 1 else 0)
  | .int n => .ok n
  | .float d => .ok (Int.tdiv d.m ((10 : Int) ^ d.e))
  | .str s =>
      match pyIntOfString s with
      | some n => .ok n
      | Option.none => .error (.valueError ("invalid literal for int: " ++ s))
  | _ => .error (.typeError "int() argument must be a string or a number")

/-- Model of Python `float(value)` on codec values. -/
def pyFloatCoerce : Value → Except PyErr Dec
  | .bool b => .ok ⟨if b then 1 else 0, 0⟩
  | .int n => .ok ⟨n, 0⟩
  | .float d => .ok d
  | .str s =>
      match pyFloatOfString s with
      | some d => .ok d
      | Option.none => .error (.valueError ("could not convert string to float: " ++ s))
  | _ => .error (.typeError "float() argument must be a string or a number")

/-- `str(float(x))` for each vector element. -/
def vectorElems : List Value → Except PyErr (List String)
  | [] => .ok []
  | x :: xs => do
      let d ← pyFloatCoerce x
      let rest ← vectorElems xs
      .ok (d.repr :: rest)

/-- `CSVWriter._format_value(value, col_type)`, translated branch by branch
from `data-generator/src/csv_writer.py` (lines 70-154).  The column type is
matched on its exploded character list so that theorems can reason about
type strings with symbolic suffixes such as `set<` ++ t. -/
def formatValueL (v : Value) (ct : List Char) : Except PyErr String :=
  match v with
  | .none => .ok ""
  | v =>
    if ct = "timestamp".data then
      match v with
      | .datetime dt => .ok (strftimeTs dt)
      | .str s => .ok s
      | _ => .ok ""
    else if ct = "date".data then
      -- `isinstance(value, date)` also catches datetimes (subclass), and the
      -- datetime branch prints the same `%Y-%m-%d`.
      match v with
      | .date y m d => .ok (strftimeDate y m d)
      | .datetime dt => .ok (strftimeDate dt.year dt.month dt.day)
      | _ => .ok (pyStr v)
    else if ct = "uuid".data ∨ ct = "timeuuid".data then .ok (pyStr v)
    else if ct = "boolean".data then .ok (if v.truthy then "true" else "false")
    else if startsWithL "set<".data ct then
      match v with
      | .set xs => if xs.isEmpty then .ok "[]" else jsonDumps (.list xs)
      | .list xs => if xs.isEmpty then .ok "[]" else jsonDumps (.list xs)
      | _ => .ok "[]"
    else if startsWithL "map<".data ct then
      match v with
      | .dict xs => if xs.isEmpty then .ok "\x7b\x7d" else jsonDumps (.dict xs)
      | _ => .ok "\x7b\x7d"
    else if startsWithL "vector<".data ct then
      match v with
      | .list xs => do
          let parts ← vectorElems xs
          .ok ("[" ++ String.intercalate ", " parts ++ "]")
      | _ => .ok ""
    else if ct = "counter".data then .ok (pyStr v)
    else if ct = "float".data ∨ ct = "double".data then do
      let d ← pyFloatCoerce v
      .ok d.repr
    else if ct = "int".data then do
      let n ← pyIntCoerce v
      .ok (toString n)
    else .ok (textNormalize (pyStr v))

/-- `CSVWriter._format_value` on a string-typed column type. -/
def formatValue (v : Value) (colType : String) : Except PyErr String :=
  formatValueL v colType.data

/-- A record: column name to Python value (a `dict`). -/
abbrev Record := List (String × Value)

/-- A schema: ordered column name to column type mapping. -/
abbrev Schema := List (String × String)

/-- `record.get(col)` (`None` when absent). -/
def recordGet (rec : Record) (col : String) : Value :=
  match rec.find? (fun p => p.1 = col) with
  | some p => p.2
  | Option.none => Value.none

/-- One row of `CSVWriter.write_table`: format each schema column in schema
order from `row.get(col)`. -/
def encodeRow (rec : Record) (schema : Schema) : Except PyErr (List String) :=
  match schema with
  | [] => .ok []
  | (col, ty) :: rest => do
      let f ← formatValue (recordGet rec col) ty
      let fs ← encodeRow rec rest
      .ok (f :: fs)

/-- The data loop of `write_table`: rows formatted in order; the first
formatting exception aborts the loop (there is no per-row handler in the
source), leaving the rows already written and the error. -/
def writeRows (data : List Record) (schema : Schema) : List (List String) × Option PyErr :=
  match data with
  | [] => ([], Option.none)
  | r :: rs =>
    match encodeRow r schema with
    | .ok fields =>
        let (rest, e) := writeRows rs schema
        (fields :: rest, e)
    | .error e => ([], some e)

/-- `CSVWriter.write_table`: no file at all for empty data; otherwise the
header (schema column names in order) plus the data rows written before any
abort, and the uncaught error if one occurred. -/
def write_table (data : List Record) (schema : Schema) :
    Option (List String × List (List String) × Option PyErr) :=
  if data.isEmpty then Option.none
  else some (schema.map Prod.fst, writeRows data schema)

/-- Re-hyphenate a 32-hex-digit string in canonical 8-4-4-4-12 UUID form. -/
def uuidHyphenate (l : List Char) : String :=
  ⟨l.take 8⟩ ++ "-" ++ ⟨(l.drop 8).take 4⟩ ++ "-" ++ ⟨(l.drop 12).take 4⟩
    ++ "-" ++ ⟨(l.drop 16).take 4⟩ ++ "-" ++ ⟨l.drop 20⟩

/-- Model of the `uuid.UUID(hex)` constructor: strip `urn:`/`uuid:`/braces,
drop hyphens, require 32 hex digits, and canonicalize to lowercase
hyphenated form (Python UUIDs compare by value; the canonical string is a
faithful representation). -/
def pyUUIDCanon (s : String) : Option String :=
  let h := pyReplace (pyReplace s "urn:" "") "uuid:" ""
  let h2 := pyStripAnyL ['\x7b', '\x7d'] h.data
  let hex := h2.filter (fun c => c ≠ '-')
  if hex.length = 32 ∧ hex.all pyIsHexChar then some (uuidHyphenate (hex.map pyToLowerChar))
  else Option.none

/-- The item-splitting state machine shared by the `set<...>` branch of
`parse_csv_value` and the set branch of `parse_row`: `""` unescapes to a
quote, a bare quote toggles `in_quotes`, a comma outside quotes ends the
current (non-empty) item. -/
def setItems : List Char → String → Bool → List String → List String
  | [], cur, _, acc => if cur = "" then acc else acc ++ [cur]
  | '"' :: '"' :: rest, cur, inq, acc => setItems rest (cur.push '"') inq acc
  | '"' :: rest, cur, inq, acc => setItems rest cur (!inq) acc
  | c :: rest, cur, inq, acc =>
      if c = ',' ∧ inq = false then
        if cur = "" then setItems rest "" inq acc else setItems rest "" inq (acc ++ [cur])
      else setItems rest (cur.push c) inq acc

/-- The pair-splitting loop of the `map<...>` branches: a quote toggles
`in_quotes` and is kept, a comma outside quotes ends the current pair. -/
def mapPairs : List Char → String → Bool → List String → List String
  | [], cur, _, acc => if cur = "" then acc else acc ++ [cur]
  | c :: rest, cur, inq, acc =>
      if c = '"' then mapPairs rest (cur.push '"') (!inq) acc
      else if c = ',' ∧ inq = false then
        if cur = "" then mapPairs rest "" inq acc else mapPairs rest "" inq (acc ++ [cur])
      else mapPairs rest (cur.push c) inq acc

/-- `pair.split(':', 1)`: text before the first colon, and after it. -/
def splitColonFirst (s : String) : String × String :=
  let i := s.data.takeWhile (fun c => c ≠ ':')
  (⟨i⟩, ⟨(s.data.drop i.length).drop 1⟩)

/-- Python dict insertion: overwrite an existing binding in place, else
append. -/
def dictInsert (xs : List (String × Value)) (k : String) (v : Value) : List (String × Value) :=
  match xs with
  | [] => [(k, v)]
  | (k2, w) :: rest => if k2 = k then (k2, v) :: rest else (k2, w) :: dictInsert rest k v

/-- Assemble map pairs: keys stripped of whitespace and quotes, values
parsed as floats with a quoted-string fallback; pairs without a colon are
skipped. -/
def mapAssemble : List String → List (String × Value) → List (String × Value)
  | [], acc => acc
  | p :: rest, acc =>
      if ':' ∈ p.data then
        let kp := splitColonFirst p
        let key := pyStripChar '"' (pyStrip kp.1)
        let val : Value :=
          match pyFloatOfString (pyStrip kp.2) with
          | some d => .float d
          | Option.none => .str (pyStripChar '"' (pyStrip kp.2))
        mapAssemble rest (dictInsert acc key val)
      else mapAssemble rest acc

/-- `set(items)` on strings: deduplicate keeping first occurrences. -/
def pySetDedupAux : List String → List String → List String
  | acc, [] => acc
  | acc, x :: r => pySetDedupAux (if acc.contains x then acc else acc ++ [x]) r

/-- `set(items)` on strings. -/
def pySetDedup (xs : List String) : List String := pySetDedupAux [] xs

/-- `set(items)` on decoded JSON values, deduplicating via Python `==`. -/
def valueSetDedupAux : List Value → List Value → List Value
  | acc, [] => acc
  | acc, x :: r =>
      valueSetDedupAux (if acc.any (fun y => Value.scalarEq x y) then acc else acc ++ [x]) r

/-- `set(items)` on decoded JSON values. -/
def valueSetDedup (xs : List Value) : List Value := valueSetDedupAux [] xs

/-- `CassandraLoader.parse_csv_value(value, column_type)`, translated branch
by branch from `loaders/oss-cassandra/load_with_python.py` (lines 132-227).
Branches that call a raising constructor (`UUID`, `fromisoformat`, `int`,
`float`) produce `Except.error` exactly where Python raises. -/
def parse_csv_value (value columnType : String) : Except PyErr Value :=
  if value = "" ∨ pyLower value = "null" then .ok .none
  else if columnType = "uuid" ∨ columnType = "timeuuid" then
    match pyUUIDCanon value with
    | some u => .ok (.uuid u)
    | Option.none => .error (.valueError ("badly formed hexadecimal UUID string: " ++ value))
  else if columnType = "timestamp" then
    match pyFromIso (pyReplace value "Z" "+00:00") with
    | some dt => .ok (.datetime dt)
    | Option.none => .error (.valueError ("Invalid isoformat string: " ++ value))
  else if columnType = "int" ∨ columnType = "bigint" then
    match pyIntOfString value with
    | some n => .ok (.int n)
    | Option.none => .error (.valueError ("invalid literal for int: " ++ value))
  else if columnType = "float" ∨ columnType = "double" then
    match pyFloatOfString value with
    | some d => .ok (.float d)
    | Option.none => .error (.valueError ("could not convert string to float: " ++ value))
  else if columnType = "boolean" then
    .ok (.bool (pyLower value = "true" ∨ pyLower value = "1" ∨ pyLower value = "yes"))
  else if startsWithL "set<".data columnType.data then
    if pyStartsWith value "\x7b" ∧ pyEndsWith value "\x7d" then
      let inner := (value.drop 1).dropRight 1
      if inner = "" then .ok (.set [])
      else
        let items := setItems inner.data "" false []
        .ok (if items.isEmpty then .none else .set ((pySetDedup items).map .str))
    else .ok .none
  else if startsWithL "map<".data columnType.data then
    if pyStartsWith value "\x7b" ∧ pyEndsWith value "\x7d" then
      let inner := (value.drop 1).dropRight 1
      if inner = "" then .ok (.dict [])
      else
        let result := mapAssemble (mapPairs inner.data "" false []) []
        .ok (if result.isEmpty then .none else .dict result)
    else .ok .none
  else .ok (.str value)

/-- The per-field structural sniffer inside `CollectionLoader.parse_row`
(`loaders/astra-collections/load_to_collections.py`, lines 152-238),
applied to a non-empty, non-`null` field.  The surrounding
`except Exception` would fall back to the raw string, but no branch of the
translated body can raise, so the function is total. -/
def sniffFieldL (l : List Char) : Value :=
  if l.length = 36 ∧ l.count '-' = 4 then .str ⟨l⟩
  else if 'T' ∈ l ∧ ('Z' ∈ l ∨ '+' ∈ l) then .str ⟨l⟩
  else if pyIsDigitStr l = true ∨ (l.head? = some '-' ∧ pyIsDigitStr l.tail = true) then
    .int ((pyIntOfStringL l).getD 0)
  else if '.' ∈ l then
    match pyFloatOfStringL l with
    | some d => .float d
    | Option.none => .str ⟨l⟩
  else if l.head? = some '\x7b' ∧ l.getLast? = some '\x7d' ∧ '"' ∈ l then
    let inner := (l.drop 1).dropLast
    if inner.isEmpty then .list []
    else .list ((setItems inner "" false []).map .str)
  else if l.head? = some '\x7b' ∧ l.getLast? = some '\x7d' ∧ ':' ∈ l then
    let inner := (l.drop 1).dropLast
    if inner.isEmpty then .dict []
    else .dict (mapAssemble (mapPairs inner "" false []) [])
  else if pyLower ⟨l⟩ = "true" ∨ pyLower ⟨l⟩ = "false" then .bool (pyLower ⟨l⟩ = "true")
  else .str ⟨l⟩

/-- The sniffer on a string field. -/
def sniffField (s : String) : Value := sniffFieldL s.data

/-- `CollectionLoader.parse_row`: skip empty/`null` fields, sniff the rest. -/
def parse_row (row : List (String × String)) : List (String × Value) :=
  row.foldl
    (fun acc kv =>
      if kv.2 = "" ∨ pyLower kv.2 = "null" then acc
      else dictInsert acc kv.1 (sniffField kv.2))
    []

/-- `parse_set` from `loaders/astra-tables/load_data_cql.py` (lines
106-124): JSON arrays via `json.loads` (decode errors caught, yielding
`None`; `set()` of unhashable elements raises `TypeError`, which the
source does not catch), CQL-style brace literals via naive comma
splitting, anything else `None`; an empty item list yields `None`. -/
def parse_set (value : String) : Except PyErr Value :=
  if value = "" ∨ value = "null" then .ok .none
  else if pyStartsWith value "[" then
    match jsonLoads value with
    | some (.list xs) =>
        if xs.isEmpty then .ok .none
        else if xs.any (fun x =>
            match x with
            | .list _ => true
            | .dict _ => true
            | .set _ => true
            | _ => false) then
          .error (.typeError "unhashable type")
        else .ok (.set (valueSetDedup xs))
    | some _ => .ok .none
    | Option.none => .ok .none
  else if pyStartsWith value "\x7b" ∧ pyEndsWith value "\x7d" then
    let itemsStr := (value.drop 1).dropRight 1
    let items := (pySplit itemsStr ",").filterMap (fun item =>
        if pyStrip item = "" then Option.none
        else some (pyStripChar '\x27' (pyStripChar '"' (pyStrip item))))
    .ok (if items.isEmpty then .none else .set ((pySetDedup items).map .str))
  else .ok .none

/-- `parse_map` from `loaders/astra-tables/load_data_cql.py` (lines
127-134): `json.loads` with decode errors caught, yielding `None`. -/
def parse_map (value : String) : Except PyErr Value :=
  if value = "" ∨ value = "null" then .ok .none
  else
    match jsonLoads value with
    | some j => .ok j
    | Option.none => .ok .none

/-- A CSV row as produced by `csv.DictReader`: column name to field text. -/
abbrev CsvRow := List (String × String)

/-- `row[col]` lookup (first binding). -/
def csvGet (r : CsvRow) (col : String) : Option String :=
  match r.find? (fun p => p.1 = col) with
  | some p => some p.2
  | Option.none => Option.none

/-- The CSV directory seen by `validate_foreign_keys`: `none` = the file is
absent (`FileNotFoundError`), `some rows` = the file's data rows. -/
structure CsvDir where
  users : Option (List CsvRow)
  videos : Option (List CsvRow)
  user_credentials : Option (List CsvRow)
  comments : Option (List CsvRow)
  comments_by_user : Option (List CsvRow)
  video_ratings_by_user : Option (List CsvRow)
  user_preferences : Option (List CsvRow)

/-- `load_csv_ids`: collect the values of one column over all rows (rows
lacking the column are skipped); membership is all that is used of the set. -/
def load_csv_ids (rows : List CsvRow) (col : String) : List String :=
  rows.filterMap (fun r => csvGet r col)

/-- The `errors` defaultdict: association list in insertion order. -/
abbrev ErrDict := List (String × List String)

/-- `errors[t].append(msg)` — defaultdict: a missing key is created at the
end, then appended to. -/
def ddAppend (d : ErrDict) (t : String) (msg : String) : ErrDict :=
  match d with
  | [] => [(t, [msg])]
  | (k, msgs) :: rest =>
      if k = t then (k, msgs ++ [msg]) :: rest else (k, msgs) :: ddAppend rest t msg

/-- Reading `errors[t]` (as in `if errors[t]:`) inserts an empty list when
the key is missing — defaultdict `__missing__`. -/
def ddTouch (d : ErrDict) (t : String) : ErrDict :=
  match d with
  | [] => [(t, [])]
  | (k, msgs) :: rest => if k = t then (k, msgs) :: rest else (k, msgs) :: ddTouch rest t

/-- Look up a table's recorded violations. -/
def ddGet (d : ErrDict) (t : String) : List String :=
  match d with
  | [] => []
  | (k, msgs) :: rest => if k = t then msgs else ddGet rest t

/-- One foreign-key check: column name, referenced id set, referenced table
name (for the message). -/
abbrev FkCheck := String × List String × String

/-- The violation message `f"Row {i}: {col} {value} not in {ref}"`. -/
def errMsg (i : Nat) (col v refName : String) : String :=
  "Row " ++ toString i ++ ": " ++ col ++ " " ++ v ++ " not in " ++ refName

/-- Apply the per-row checks of one validation section to one row; a
missing column is a `KeyError` that the source does not catch. -/
def applyChecks (tname : String) (r : CsvRow) (i : Nat) :
    List FkCheck → ErrDict → Except PyErr ErrDict
  | [], d => .ok d
  | (col, refIds, refName) :: cks, d =>
    match csvGet r col with
    | Option.none => .error (.keyError col)
    | some v =>
        let d := if refIds.contains v then d
          else ddAppend d tname (errMsg i col v refName)
        applyChecks tname r i cks d

/-- The row loop of one validation section. -/
def sectionRows (tname : String) (checks : List FkCheck) :
    List CsvRow → Nat → ErrDict → Except PyErr ErrDict
  | [], _, d => .ok d
  | r :: rs, i, d => do
      let d ← applyChecks tname r i checks d
      sectionRows tname checks rs (i + 1) d

/-- One `try: open(...)` validation section of `validate_foreign_keys`: a
missing file is caught (`FileNotFoundError`) and skipped; otherwise every
row is checked and then `if errors[tname]:` touches the defaultdict key. -/
def validateSection (d : ErrDict) (tname : String) (file : Option (List CsvRow))
    (checks : List FkCheck) : Except PyErr ErrDict :=
  match file with
  | Option.none => .ok d
  | some rows => do
      let d ← sectionRows tname checks rows 0 d
      .ok (ddTouch d tname)

/-- `validate_foreign_keys` from `data-generator/scripts/validate_data.py`:
load the primary-key sets (absent `users.csv`/`videos.csv` returns `False`
immediately), run the six validation sections in source order, and succeed
iff the `errors` defaultdict is empty — note that reading `errors[t]` in a
section creates the key, so the final dict also holds empty entries for
violation-free tables that were checked. -/
def validate_foreign_keys (fs : CsvDir) : Except PyErr (Bool × ErrDict) :=
  match fs.users with
  | Option.none => .ok (false, [])
  | some usersRows =>
    let userIds := load_csv_ids usersRows "userid"
    let userEmails := load_csv_ids usersRows "email"
    match fs.videos with
    | Option.none => .ok (false, [])
    | some videoRows =>
      let videoIds := load_csv_ids videoRows "videoid"
      do
        let d ← validateSection [] "user_credentials" fs.user_credentials
          [("email", userEmails, "users"), ("userid", userIds, "users")]
        let d ← validateSection d "videos" fs.videos [("userid", userIds, "users")]
        let d ← validateSection d "comments" fs.comments
          [("videoid", videoIds, "videos"), ("userid", userIds, "users")]
        let d ← validateSection d "comments_by_user" fs.comments_by_user
          [("videoid", videoIds, "videos"), ("userid", userIds, "users")]
        let d ← validateSection d "video_ratings_by_user" fs.video_ratings_by_user
          [("videoid", videoIds, "videos"), ("userid", userIds, "users")]
        let d ← validateSection d "user_preferences" fs.user_preferences
          [("userid", userIds, "users")]
        .ok (d.isEmpty, d)

/-- The concrete scenario of the referential-integrity claim: `users.csv`
with one row `userid=u1, email=e`; `videos.csv` present but without data
rows (so `v1` is absent); `comments.csv` with one row
`videoid=v1, userid=u2`; the remaining files absent. -/
def fkScenario (u1 e u2 v1 : String) : CsvDir where
  users := some [[("userid", u1), ("email", e)]]
  videos := some []
  user_credentials := Option.none
  comments := some [[("videoid", v1), ("userid", u2)]]
  comments_by_user := Option.none
  video_ratings_by_user := Option.none
  user_preferences := Option.none

/-- Is the value a Python `set` or `list`? -/
def Value.isSetOrList : Value → Bool
  | .set _ => true
  | .list _ => true
  | _ => false

/-- Is the value a Python `dict`? -/
def Value.isDict : Value → Bool
  | .dict _ => true
  | _ => false

theorem head_ne_lists (a b : Char) (l m : List Char) (hab : a ≠ b) : a :: l ≠ b :: m := by
  intro he
  injection he with h1 _
  exact hab h1

theorem not_pre_of_ne_head (a b : Char) (l m : List Char) (hab : a ≠ b) :
    ¬(a :: l <+: b :: m) := by
  intro hp
  rcases hp with ⟨u, hu⟩
  injection hu with h1 _
  exact hab h1

/-- C1 (amended).  Round-trip at the codec boundary holds for the types
`uuid`/`timeuuid`, `timestamp` (for a timezone-aware UTC value of whole
milliseconds), `boolean`, `int`, `float`/`double`, `text` (already
normalized text) and `map<text,float>`, at representative non-null values:
decoding the encoded field with the same declared type returns the original
value.  It fails for every value of type `set<text>` (the encoder emits a
JSON array, the decoder only accepts brace literals and returns `None`),
and for `vector<float,N>`, `counter` and `date`, where the decoder has no
branch and returns the raw string. -/
theorem C1_roundtrip_amended :
    (formatValue (.uuid "123e4567-e89b-12d3-a456-426614174000") "uuid"
        = .ok "123e4567-e89b-12d3-a456-426614174000"
      ∧ parse_csv_value "123e4567-e89b-12d3-a456-426614174000" "uuid"
        = .ok (.uuid "123e4567-e89b-12d3-a456-426614174000"))
    ∧ (formatValue (.uuid "123e4567-e89b-12d3-a456-426614174000") "timeuuid"
        = .ok "123e4567-e89b-12d3-a456-426614174000"
      ∧ parse_csv_value "123e4567-e89b-12d3-a456-426614174000" "timeuuid"
        = .ok (.uuid "123e4567-e89b-12d3-a456-426614174000"))
    ∧ (formatValue (.datetime ⟨2025, 4, 28, 2, 49, 41, 964000, some 0⟩) "timestamp"
        = .ok "2025-04-28T02:49:41.964Z"
      ∧ parse_csv_value "2025-04-28T02:49:41.964Z" "timestamp"
        = .ok (.datetime ⟨2025, 4, 28, 2, 49, 41, 964000, some 0⟩))
    ∧ (formatValue (.bool true) "boolean" = .ok "true"
      ∧ parse_csv_value "true" "boolean" = .ok (.bool true))
    ∧ (formatValue (.int 42) "int" = .ok "42"
      ∧ parse_csv_value "42" "int" = .ok (.int 42))
    ∧ (formatValue (.float ⟨5, 1⟩) "float" = .ok "0.5"
      ∧ parse_csv_value "0.5" "float" = .ok (.float ⟨5, 1⟩))
    ∧ (formatValue (.float ⟨5, 1⟩) "double" = .ok "0.5"
      ∧ parse_csv_value "0.5" "double" = .ok (.float ⟨5, 1⟩))
    ∧ (formatValue (.str "hello") "text" = .ok "hello"
      ∧ parse_csv_value "hello" "text" = .ok (.str "hello"))
    ∧ (formatValue (.dict [("a", .float ⟨8, 1⟩)]) "map<text,float>"
        = .ok "\x7b\"a\": 0.8\x7d"
      ∧ parse_csv_value "\x7b\"a\": 0.8\x7d" "map<text,float>"
        = .ok (.dict [("a", .float ⟨8, 1⟩)]))
    ∧ (formatValue (.set [.str "a"]) "set<text>" = .ok "[\"a\"]"
      ∧ parse_csv_value "[\"a\"]" "set<text>" = .ok .none
      ∧ Value.none ≠ Value.set [.str "a"])
    ∧ (formatValue (.list [.float ⟨5, 1⟩, .float ⟨25, 2⟩]) "vector<float,384>"
        = .ok "[0.5, 0.25]"
      ∧ parse_csv_value "[0.5, 0.25]" "vector<float,384>" = .ok (.str "[0.5, 0.25]")
      ∧ Value.str "[0.5, 0.25]" ≠ Value.list [.float ⟨5, 1⟩, .float ⟨25, 2⟩])
    ∧ (formatValue (.int 42) "counter" = .ok "42"
      ∧ parse_csv_value "42" "counter" = .ok (.str "42")
      ∧ Value.str "42" ≠ Value.int 42)
    ∧ (formatValue (.date 2025 4 28) "date" = .ok "2025-04-28"
      ∧ parse_csv_value "2025-04-28" "date" = .ok (.str "2025-04-28")
      ∧ Value.str "2025-04-28" ≠ Value.date 2025 4 28) :=
  ⟨⟨rfl, rfl⟩, ⟨rfl, rfl⟩, ⟨rfl, rfl⟩, ⟨rfl, rfl⟩, ⟨rfl, rfl⟩, ⟨rfl, rfl⟩,
   ⟨rfl, rfl⟩, ⟨rfl, rfl⟩, ⟨rfl, rfl⟩,
   ⟨rfl, rfl, fun h => Value.noConfusion h⟩,
   ⟨rfl, rfl, fun h => Value.noConfusion h⟩,
   ⟨rfl, rfl, fun h => Value.noConfusion h⟩,
   ⟨rfl, rfl, fun h => Value.noConfusion h⟩⟩

/-- C1 (counterexample).  For the schema type `set<text>` no value round
trips: encoding the set `{"a"}` produces the JSON array text `["a"]`, and
decoding that text with declared type `set<text>` yields `None` (Python
`None == {"a"}` is `False`), not the set. -/
theorem C1_roundtrip_cex :
    formatValue (.set [.str "a"]) "set<text>" = .ok "[\"a\"]"
    ∧ parse_csv_value "[\"a\"]" "set<text>" = .ok .none
    ∧ Value.none ≠ Value.set [.str "a"] :=
  ⟨rfl, rfl, fun h => Value.noConfusion h⟩

/-- C2 (amended).  Encoding `None` under any column type yields the empty
field, and decoding the empty field yields `None`; an empty set encodes as
`[]` and an empty map as `{}`; decoding `{}` as a map yields the empty map
(not `None`); but decoding `[]` (by `parse_set` or by `parse_csv_value`
under a set type) yields `None`, so the empty-set encoding collapses to
null on round-trip.  The three field texts `""`, `[]`, `{}` are distinct
texts, yet `""` and `[]` decode to the same `None`. -/
theorem C2_null_empty_amended :
    (∀ ty : String, formatValue .none ty = .ok "")
    ∧ (∀ ty : String, parse_csv_value "" ty = .ok .none)
    ∧ parse_set "" = .ok .none
    ∧ parse_map "" = .ok .none
    ∧ formatValue (.set []) "set<text>" = .ok "[]"
    ∧ formatValue (.dict []) "map<text,float>" = .ok "\x7b\x7d"
    ∧ parse_map "\x7b\x7d" = .ok (.dict [])
    ∧ parse_csv_value "\x7b\x7d" "map<text,float>" = .ok (.dict [])
    ∧ parse_set "[]" = .ok .none
    ∧ parse_csv_value "[]" "set<text>" = .ok .none :=
  ⟨fun _ => rfl, fun _ => rfl, rfl, rfl, rfl, rfl, rfl, rfl, rfl, rfl⟩

/-- C2 (counterexample).  Decoding the empty-set encoding `[]` with
`parse_set` yields `None`, not an empty set. -/
theorem C2_null_empty_cex :
    parse_set "[]" = .ok .none ∧ Value.none ≠ Value.set [] :=
  ⟨rfl, fun h => Value.noConfusion h⟩

/-- C9.  The boolean encoder follows Python truthiness: every non-`None`
value encodes as `true` exactly when it is truthy; in particular the
non-empty string `"false"` and the integer 1 encode as `true`, and the
integer 0 encodes as `false` (not as an empty field). -/
theorem C9_boolean_truthiness :
    (∀ v : Value, v ≠ .none →
      formatValue v "boolean" = .ok (if v.truthy then "true" else "false"))
    ∧ formatValue (.str "false") "boolean" = .ok "true"
    ∧ formatValue (.int 1) "boolean" = .ok "true"
    ∧ formatValue (.int 0) "boolean" = .ok "false" := by
  refine ⟨?_, rfl, rfl, rfl⟩
  intro v hv
  cases v
  case none => exact absurd rfl hv
  all_goals rfl

/-- C9 witness. -/
theorem C9_boolean_truthiness_witness :
    Value.str "false" ≠ Value.none
    ∧ formatValue (.str "false") "boolean"
        = .ok (if (Value.str "false").truthy then "true" else "false") :=
  ⟨fun h => Value.noConfusion h,
   C9_boolean_truthiness.1 (.str "false") (fun h => Value.noConfusion h)⟩

/-- C10.  Wrong-typed container values are silently coerced to empty
containers: any non-`None` value that is not a set or list encodes as `[]`
under any `set<...>` column, and any non-`None` value that is not a dict
encodes as `{}` under any `map<...>` column, with no error. -/
theorem C10_container_coercion :
    (∀ (v : Value) (t : String), v ≠ .none → v.isSetOrList = false →
      formatValue v ("set<" ++ t) = .ok "[]")
    ∧ (∀ (v : Value) (t : String), v ≠ .none → v.isDict = false →
      formatValue v ("map<" ++ t) = .ok "\x7b\x7d") := by
  constructor
  · intro v t hv hsl
    cases v
    case none => exact absurd rfl hv
    case set xs => exact absurd hsl (by simp [Value.isSetOrList])
    case list xs => exact absurd hsl (by simp [Value.isSetOrList])
    all_goals rfl
  · intro v t hv hd
    cases v
    case none => exact absurd rfl hv
    case dict xs => exact absurd hd (by simp [Value.isDict])
    all_goals rfl

/-- C10 witness. -/
theorem C10_container_coercion_witness :
    (Value.int 7 ≠ Value.none ∧ (Value.int 7).isSetOrList = false
      ∧ formatValue (.int 7) ("set<" ++ "text>") = .ok "[]")
    ∧ (Value.str "x" ≠ Value.none ∧ (Value.str "x").isDict = false
      ∧ formatValue (.str "x") ("map<" ++ "text,float>") = .ok "\x7b\x7d") :=
  ⟨⟨fun h => Value.noConfusion h, rfl,
    C10_container_coercion.1 (.int 7) "text>" (fun h => Value.noConfusion h) rfl⟩,
   ⟨fun h => Value.noConfusion h, rfl,
    C10_container_coercion.2 (.str "x") "text,float>" (fun h => Value.noConfusion h) rfl⟩⟩

/-- C3 (counterexample).  One row whose `int`-declared field holds the
non-numeric string "abc", between two good rows: `write_table` writes the
header and the first row, then the uncaught `ValueError` aborts the whole
table — the bad row is not skipped and the third row is never encoded. -/
theorem C3_encode_abort_cex :
    write_table
        [[("id", .int 1), ("name", .str "ok1")],
         [("id", .str "abc"), ("name", .str "bad")],
         [("id", .int 3), ("name", .str "ok3")]]
        [("id", "int"), ("name", "text")]
      = some (["id", "name"], [["1", "ok1"]],
          some (.valueError "invalid literal for int: abc")) :=
  rfl

/-- C3 (amended).  The encoder has no per-row recovery: a field whose
runtime value cannot be formatted for its declared type (for example a
non-numeric string under `int`) raises, the rows encoded before it remain
written, and the rest of the table is never encoded; when every row
formats successfully the whole table is written with no error; and a list
under a declared `text` column does not fail at all — it is stringified
and normalized. -/
theorem C3_encode_abort_amended :
    write_table
        [[("id", .int 1), ("name", .str "ok1")],
         [("id", .str "abc"), ("name", .str "bad")],
         [("id", .int 3), ("name", .str "ok3")]]
        [("id", "int"), ("name", "text")]
      = some (["id", "name"], [["1", "ok1"]],
          some (.valueError "invalid literal for int: abc"))
    ∧ (∀ (data : List Record) (schema : Schema),
        (∀ r ∈ data, (encodeRow r schema).isOk = true) →
        (writeRows data schema).2 = Option.none
          ∧ (writeRows data schema).1.length = data.length)
    ∧ formatValue (.list [.int 1, .int 2]) "text" = .ok "[1, 2]" := by
  refine ⟨rfl, ?_, rfl⟩
  intro data schema h
  induction data with
  | nil => exact ⟨rfl, rfl⟩
  | cons r rs ih =>
    have hr := h r (List.mem_cons_self r rs)
    obtain ⟨fields, hf⟩ : ∃ fields, encodeRow r schema = .ok fields := by
      cases he : encodeRow r schema with
      | ok fields => exact ⟨fields, rfl⟩
      | error e => rw [he] at hr; exact Bool.noConfusion hr
    have ihr := ih (fun x hx => h x (List.mem_cons_of_mem r hx))
    constructor
    · show (writeRows (r :: rs) schema).2 = Option.none
      simp only [writeRows, hf]
      exact ihr.1
    · show (writeRows (r :: rs) schema).1.length = rs.length + 1
      simp only [writeRows, hf, List.length_cons]
      rw [ihr.2]

/-- C3 witness. -/
theorem C3_encode_abort_witness :
    (∀ r ∈ [[(("id" : String), Value.int 1)]],
        (encodeRow r [("id", "int")]).isOk = true)
    ∧ (writeRows [[(("id" : String), Value.int 1)]] [("id", "int")]).2 = Option.none
    ∧ (writeRows [[(("id" : String), Value.int 1)]] [("id", "int")]).1.length = 1 := by
  refine ⟨?_, ?_⟩
  · intro r hr
    simp only [List.mem_singleton] at hr
    subst hr
    rfl
  · exact C3_encode_abort_amended.2.1 [[(("id" : String), Value.int 1)]] [("id", "int")]
      (by intro r hr; simp only [List.mem_singleton] at hr; subst hr; rfl)

/-- C4 (counterexample).  The declared-type decoder raises to its caller:
for declared type `int` and the field "abc", `int("abc")` raises
`ValueError`; the raw string is not returned. -/
theorem C4_decoder_totality_cex :
    parse_csv_value "abc" "int" = .error (.valueError "invalid literal for int: abc")
    ∧ parse_csv_value "abc" "int" ≠ .ok (.str "abc") :=
  ⟨rfl, fun h => Except.noConfusion
    (show (Except.error (PyErr.valueError "invalid literal for int: abc") : Except PyErr Value)
        = Except.ok (Value.str "abc") from h)⟩

/-- C4 (amended).  The structural-sniffing decoder (`parse_row`) is total
and never raises — its translation is a plain function.  The declared-type
decoder (`parse_csv_value`) raises only in the `uuid`/`timeuuid`/
`timestamp`/`int`/`bigint`/`float`/`double` branches (where Python calls a
raising constructor, and the caller catches per row); for every other
declared type it returns a value, and for a declared type outside the
handled set it returns the raw string unmodified. -/
theorem C4_decoder_totality_amended :
    (∀ v ty : String,
      ty ∉ ["uuid", "timeuuid", "timestamp", "int", "bigint", "float", "double"] →
      (parse_csv_value v ty).isOk = true)
    ∧ (∀ v ty : String,
      ty ∉ ["uuid", "timeuuid", "timestamp", "int", "bigint", "float", "double",
            "boolean"] →
      startsWithL "set<".data ty.data = false →
      startsWithL "map<".data ty.data = false →
      v ≠ "" → pyLower v ≠ "null" →
      parse_csv_value v ty = .ok (.str v)) := by
  constructor
  · intro v ty hty
    unfold parse_csv_value
    by_cases h0 : v = "" ∨ pyLower v = "null"
    · rw [if_pos h0] ; rfl
    · rw [if_neg h0,
          if_neg (by rintro (h | h) <;> exact absurd (by rw [h] ; decide) hty),
          if_neg (fun h => absurd (by rw [h] ; decide) hty),
          if_neg (by rintro (h | h) <;> exact absurd (by rw [h] ; decide) hty),
          if_neg (by rintro (h | h) <;> exact absurd (by rw [h] ; decide) hty)]
      by_cases hb : ty = "boolean"
      · rw [if_pos hb] ; rfl
      · rw [if_neg hb]
        by_cases hs : startsWithL "set<".data ty.data = true
        · rw [if_pos hs]
          by_cases hbr : pyStartsWith v "\x7b" = true ∧ pyEndsWith v "\x7d" = true
          · rw [if_pos hbr]
            by_cases hi : (v.drop 1).dropRight 1 = ""
            · rw [if_pos hi] ; rfl
            · rw [if_neg hi] ; rfl
          · rw [if_neg hbr] ; rfl
        · rw [if_neg hs]
          by_cases hm : startsWithL "map<".data ty.data = true
          · rw [if_pos hm]
            by_cases hbr : pyStartsWith v "\x7b" = true ∧ pyEndsWith v "\x7d" = true
            · rw [if_pos hbr]
              by_cases hi : (v.drop 1).dropRight 1 = ""
              · rw [if_pos hi] ; rfl
              · rw [if_neg hi] ; rfl
            · rw [if_neg hbr] ; rfl
          · rw [if_neg hm] ; rfl
  · intro v ty hty hset hmap hv hnull
    unfold parse_csv_value
    rw [if_neg (by rintro (h | h) <;> [exact hv h; exact hnull h]),
        if_neg (by rintro (h | h) <;> exact hty (by rw [h] ; decide)),
        if_neg (fun h => hty (by rw [h] ; decide)),
        if_neg (by rintro (h | h) <;> exact hty (by rw [h] ; decide)),
        if_neg (by rintro (h | h) <;> exact hty (by rw [h] ; decide)),
        if_neg (fun h => hty (by rw [h] ; decide)),
        if_neg (by simp [hset]), if_neg (by simp [hmap])]

/-- C4 witness. -/
theorem C4_decoder_totality_witness :
    ("weird" : String) ∉ ["uuid", "timeuuid", "timestamp", "int", "bigint",
        "float", "double"]
    ∧ (parse_csv_value "xyz" "weird").isOk = true
    ∧ parse_csv_value "xyz" "weird" = .ok (.str "xyz") := by
  refine ⟨by decide, C4_decoder_totality_amended.1 "xyz" "weird" (by decide),
    C4_decoder_totality_amended.2 "xyz" "weird" (by decide) (by decide) (by decide)
      (by decide) (by decide)⟩

/-- C7.  Referential-integrity checker, concrete scenario: with `users.csv`
holding exactly one row `userid=u1` (and an email), `comments.csv` holding
exactly one row `videoid=v1, userid=u2` where `u2 ≠ u1`, and `v1` absent
from `videos.csv`, the checker records exactly two violations for the
`comments` table — one for the missing videoid reference and one for the
missing userid reference, both reported rather than halting at the first —
and returns failure (`False`). -/
theorem C7_fk_checker (u1 e u2 v1 : String) (h : u2 ≠ u1) :
    validate_foreign_keys (fkScenario u1 e u2 v1)
      = .ok (false,
          [("videos", []),
           ("comments",
            [errMsg 0 "videoid" v1 "videos", errMsg 0 "userid" u2 "users"])]) := by
  have hc : ([u1].contains u2) = false := by
    simp [List.contains, h]
  simp [validate_foreign_keys, fkScenario, validateSection, sectionRows, applyChecks,
    load_csv_ids, csvGet, ddTouch, ddAppend, ddGet, hc, h,
    List.filterMap, List.find?, Except.bind, bind]

/-- C7 witness. -/
theorem C7_fk_checker_witness :
    ("U2" : String) ≠ "U1"
    ∧ validate_foreign_keys (fkScenario "U1" "e@x" "U2" "V1")
      = .ok (false,
          [("videos", []),
           ("comments",
            [errMsg 0 "videoid" "V1" "videos", errMsg 0 "userid" "U2" "users"])]) :=
  ⟨by decide, C7_fk_checker "U1" "e@x" "U2" "V1" (by decide)⟩

theorem encodeRow_congr (r r2 : Record) (schema : Schema)
    (hp : ∀ p ∈ schema, recordGet r p.1 = recordGet r2 p.1) :
    encodeRow r schema = encodeRow r2 schema := by
  induction schema with
  | nil => rfl
  | cons p rest ih =>
    obtain ⟨col, ty⟩ := p
    simp only [encodeRow]
    rw [hp (col, ty) (List.mem_cons_self _ _),
        ih (fun q hq => hp q (List.mem_cons_of_mem _ hq))]

/-- C8.  The encoder emits fields exactly in the schema's declared column
order, independent of the record's own key ordering — for the schema
`{a: int, b: text}`, encoding `{b: "x", a: 1}` yields the fields
`["1", "x"]`; the encoded row depends only on the record's lookups at
schema columns; and record keys absent from the schema are dropped without
error. -/
theorem C8_schema_order :
    encodeRow [("b", .str "x"), ("a", .int 1)] [("a", "int"), ("b", "text")]
      = .ok ["1", "x"]
    ∧ (∀ (r r2 : Record) (schema : Schema),
        (∀ p ∈ schema, recordGet r p.1 = recordGet r2 p.1) →
        encodeRow r schema = encodeRow r2 schema)
    ∧ (∀ (r extra : Record) (schema : Schema),
        (∀ q ∈ extra, ∀ p ∈ schema, q.1 ≠ p.1) →
        encodeRow (r ++ extra) schema = encodeRow r schema) := by
  refine ⟨rfl, encodeRow_congr, ?_⟩
  intro r extra schema hq
  apply encodeRow_congr
  intro p hp
  unfold recordGet
  rw [List.find?_append]
  cases hr : r.find? (fun q => q.1 = p.1) with
  | some q => simp [hr]
  | none =>
    have hnone : extra.find? (fun q => q.1 = p.1) = Option.none := by
      apply List.find?_eq_none.mpr
      intro x hx
      simpa using hq x hx p hp
    simp [hr, hnone]

/-- C8 witness. -/
theorem C8_schema_order_witness :
    (∀ q ∈ [(("zzz" : String), Value.int 9)],
        ∀ p ∈ [(("a" : String), ("int" : String))], q.1 ≠ p.1)
    ∧ encodeRow ([(("a" : String), Value.int 1)] ++ [("zzz", Value.int 9)])
        [("a", "int")]
      = encodeRow [(("a" : String), Value.int 1)] [("a", "int")] := by
  refine ⟨?_, C8_schema_order.2.2 [("a", Value.int 1)] [("zzz", Value.int 9)]
    [("a", "int")] ?_⟩ <;>
  · intro q hq p hp
    simp only [List.mem_singleton] at hq hp
    subst hq
    subst hp
    decide

/-- C5.  Sniffing disambiguation: a 36-character field with exactly four
hyphens, sitting at positions 8, 13, 18 and 23, is kept in its string form
by the first (UUID) rule of `parse_row`, taking precedence over every
later rule; and any field reading `true`/`false` case-insensitively — in
particular the exact text "true" — decodes to the boolean, never to the
string. -/
theorem C5_sniffing :
    (∀ s : String, s.length = 36 → s.data.count '-' = 4 →
        s.data.get? 8 = some '-' → s.data.get? 13 = some '-' →
        s.data.get? 18 = some '-' → s.data.get? 23 = some '-' →
        sniffField s = .str s)
    ∧ (∀ s : String, pyLower s = "true" → sniffField s = .bool true)
    ∧ (∀ s : String, pyLower s = "false" → sniffField s = .bool false)
    ∧ sniffField "true" = .bool true := by
  refine ⟨?_, ?_, ?_, rfl⟩
  · intro s h36 hcnt _ _ _ _
    show sniffFieldL s.data = .str s
    unfold sniffFieldL
    rw [if_pos ⟨h36, hcnt⟩]
  · intro s hlow
    obtain ⟨l⟩ := s
    have hmap : l.map pyToLowerChar = ['t', 'r', 'u', 'e'] := congrArg String.data hlow
    cases l with
    | nil => exact absurd hmap (by decide)
    | cons a l1 =>
    cases l1 with
    | nil => simp at hmap
    | cons b l2 =>
    cases l2 with
    | nil => simp at hmap
    | cons c l3 =>
    cases l3 with
    | nil => simp at hmap
    | cons d l4 =>
    cases l4 with
    | cons e l5 => simp at hmap
    | nil =>
      have hparts := hmap
      simp only [List.map_cons, List.map_nil, List.cons.injEq, and_true] at hparts
      obtain ⟨ha, hb, hc, hd⟩ := hparts
      show sniffFieldL [a, b, c, d] = .bool true
      unfold sniffFieldL
      rw [if_neg ?g1, if_neg ?g2, if_neg ?g3, if_neg ?g4, if_neg ?g5, if_neg ?g6,
          if_pos (Or.inl hlow)]
      case _ =>
        simp only [hlow]
        rfl
      case g1 =>
        rintro ⟨h36, -⟩
        simp at h36
      case g2 =>
        rintro ⟨-, hz | hp⟩
        · have := List.mem_map_of_mem pyToLowerChar hz
          rw [hmap] at this
          exact absurd this (by decide)
        · have := List.mem_map_of_mem pyToLowerChar hp
          rw [hmap] at this
          exact absurd this (by decide)
      case g3 =>
        rintro (hdig | ⟨hh, -⟩)
        · have hda : pyIsDigitChar a = true := by
            simp [pyIsDigitStr] at hdig
            exact hdig.1
          simp only [pyIsDigitChar, List.elem_eq_mem, List.contains_cons,
            List.mem_cons, decide_eq_true_eq, beq_iff_eq, List.contains_replicate,
            List.elem_iff, Bool.or_eq_true] at hda
          rcases hda with h | h | h | h | h | h | h | h | h | h | h <;>
            first
            | (subst h; exact absurd ha (by decide))
            | simp at h
        · simp only [List.head?_cons, Option.some.injEq] at hh
          subst hh
          exact absurd ha (by decide)
      case g4 =>
        intro hdot
        have := List.mem_map_of_mem pyToLowerChar hdot
        rw [hmap] at this
        exact absurd this (by decide)
      case g5 =>
        rintro ⟨hh, -, -⟩
        simp only [List.head?_cons, Option.some.injEq] at hh
        subst hh
        exact absurd ha (by decide)
      case g6 =>
        rintro ⟨hh, -, -⟩
        simp only [List.head?_cons, Option.some.injEq] at hh
        subst hh
        exact absurd ha (by decide)
  · intro s hlow
    obtain ⟨l⟩ := s
    have hmap : l.map pyToLowerChar = ['f', 'a', 'l', 's', 'e'] := congrArg String.data hlow
    cases l with
    | nil => exact absurd hmap (by decide)
    | cons a l1 =>
    cases l1 with
    | nil => simp at hmap
    | cons b l2 =>
    cases l2 with
    | nil => simp at hmap
    | cons c l3 =>
    cases l3 with
    | nil => simp at hmap
    | cons d l4 =>
    cases l4 with
    | nil => simp at hmap
    | cons e l5 =>
    cases l5 with
    | cons f2 l6 => simp at hmap
    | nil =>
      have hparts := hmap
      simp only [List.map_cons, List.map_nil, List.cons.injEq, and_true] at hparts
      obtain ⟨ha, hb, hc, hd, he⟩ := hparts
      have hfalse : pyLower ⟨[a, b, c, d, e]⟩ ≠ "true" := by
        intro hcontra
        have := congrArg String.data hcontra
        simp only [pyLower] at this
        rw [hmap] at this
        exact absurd this (by decide)
      show sniffFieldL [a, b, c, d, e] = .bool false
      unfold sniffFieldL
      rw [if_neg ?k1, if_neg ?k2, if_neg ?k3, if_neg ?k4, if_neg ?k5, if_neg ?k6,
          if_pos (Or.inr hlow)]
      case _ =>
        simp only [decide_eq_false hfalse]
      case k1 =>
        rintro ⟨h36, -⟩
        simp at h36
      case k2 =>
        rintro ⟨-, hz | hp⟩
        · have := List.mem_map_of_mem pyToLowerChar hz
          rw [hmap] at this
          exact absurd this (by decide)
        · have := List.mem_map_of_mem pyToLowerChar hp
          rw [hmap] at this
          exact absurd this (by decide)
      case k3 =>
        rintro (hdig | ⟨hh, -⟩)
        · have hda : pyIsDigitChar a = true := by
            simp [pyIsDigitStr] at hdig
            exact hdig.1
          simp only [pyIsDigitChar, List.elem_eq_mem, List.contains_cons,
            List.mem_cons, decide_eq_true_eq, beq_iff_eq, List.contains_replicate,
            List.elem_iff, Bool.or_eq_true] at hda
          rcases hda with h | h | h | h | h | h | h | h | h | h | h <;>
            first
            | (subst h; exact absurd ha (by decide))
            | simp at h
        · simp only [List.head?_cons, Option.some.injEq] at hh
          subst hh
          exact absurd ha (by decide)
      case k4 =>
        intro hdot
        have := List.mem_map_of_mem pyToLowerChar hdot
        rw [hmap] at this
        exact absurd this (by decide)
      case k5 =>
        rintro ⟨hh, -, -⟩
        simp only [List.head?_cons, Option.some.injEq] at hh
        subst hh
        exact absurd ha (by decide)
      case k6 =>
        rintro ⟨hh, -, -⟩
        simp only [List.head?_cons, Option.some.injEq] at hh
        subst hh
        exact absurd ha (by decide)

/-- C5 witness. -/
theorem C5_sniffing_witness :
    (("123e4567-e89b-12d3-a456-426614174000" : String).length = 36
      ∧ ("123e4567-e89b-12d3-a456-426614174000" : String).data.count '-' = 4
      ∧ ("123e4567-e89b-12d3-a456-426614174000" : String).data.get? 8 = some '-'
      ∧ sniffField "123e4567-e89b-12d3-a456-426614174000"
          = .str "123e4567-e89b-12d3-a456-426614174000")
    ∧ (pyLower "TRUE" = "true" ∧ sniffField "TRUE" = .bool true)
    ∧ (pyLower "False" = "false" ∧ sniffField "False" = .bool false) :=
  ⟨⟨by decide, by decide, by decide,
    C5_sniffing.1 "123e4567-e89b-12d3-a456-426614174000" (by decide) (by decide)
      (by decide) (by decide) (by decide) (by decide)⟩,
   ⟨by decide, C5_sniffing.2.1 "TRUE" (by decide)⟩,
   ⟨by decide, C5_sniffing.2.2.1 "False" (by decide)⟩⟩

theorem charNorm_ne (a : Char) :
    charNorm a ≠ '"' ∧ charNorm a ≠ '\n' ∧ charNorm a ≠ '\r' ∧ charNorm a ≠ '\t' := by
  unfold charNorm
  split
  · exact ⟨by decide, by decide, by decide, by decide⟩
  split
  · exact ⟨by decide, by decide, by decide, by decide⟩
  next h1 h2 =>
    exact ⟨h2, fun h => h1 (Or.inl h), fun h => h1 (Or.inr (Or.inl h)),
      fun h => h1 (Or.inr (Or.inr h))⟩

theorem mem_collapseStep : ∀ (l : List Char) (c : Char), c ∈ collapseStep l → c ∈ l
  | [], c, h => by simpa [collapseStep] using h
  | [a], c, h => by simpa [collapseStep] using h
  | a :: b :: rest, c, h => by
      simp only [collapseStep] at h
      by_cases hab : a = ' ' ∧ b = ' '
      · rw [if_pos hab] at h
        rcases List.mem_cons.mp h with h | h
        · subst h
          rw [hab.1]
          exact List.mem_cons_self _ _
        · exact List.mem_cons_of_mem _ (List.mem_cons_of_mem _ (mem_collapseStep rest c h))
      · rw [if_neg hab] at h
        rcases List.mem_cons.mp h with h | h
        · subst h
          exact List.mem_cons_self _ _
        · exact List.mem_cons_of_mem _ (mem_collapseStep (b :: rest) c h)

theorem hasDbl_cons (c : Char) (l : List Char) (h : hasDbl l = true) :
    hasDbl (c :: l) = true := by
  cases l with
  | nil => simp [hasDbl] at h
  | cons b rest => simp [hasDbl, h]

theorem collapseStep_le : ∀ l : List Char, (collapseStep l).length ≤ l.length
  | [] => by simp [collapseStep]
  | [a] => by simp [collapseStep]
  | a :: b :: rest => by
      simp only [collapseStep]
      by_cases hab : a = ' ' ∧ b = ' '
      · rw [if_pos hab]
        have := collapseStep_le rest
        simp only [List.length_cons]
        omega
      · rw [if_neg hab]
        have := collapseStep_le (b :: rest)
        simp only [List.length_cons] at *
        omega

theorem collapseStep_lt : ∀ l : List Char, hasDbl l = true → (collapseStep l).length < l.length
  | [], h => by simp [hasDbl] at h
  | [a], h => by simp [hasDbl] at h
  | a :: b :: rest, h => by
      simp only [collapseStep]
      by_cases hab : a = ' ' ∧ b = ' '
      · rw [if_pos hab]
        have := collapseStep_le rest
        simp only [List.length_cons]
        omega
      · rw [if_neg hab]
        have hd : hasDbl (b :: rest) = true := by
          simp only [hasDbl, Bool.or_eq_true, Bool.and_eq_true, decide_eq_true_eq] at h
          rcases h with ⟨h1, h2⟩ | h
          · exact absurd ⟨h1, h2⟩ hab
          · exact h
        have := collapseStep_lt (b :: rest) hd
        simp only [List.length_cons] at *
        omega

theorem hasDbl_collapseFuel : ∀ (fuel : Nat) (l : List Char), l.length ≤ fuel →
    hasDbl (collapseFuel fuel l) = false
  | 0, l, h => by
      have : l = [] := List.eq_nil_of_length_eq_zero (Nat.le_zero.mp h)
      subst this
      rfl
  | fuel + 1, l, h => by
      unfold collapseFuel
      by_cases hd : hasDbl l = true
      · rw [if_pos hd]
        exact hasDbl_collapseFuel fuel (collapseStep l)
          (by have := collapseStep_lt l hd; omega)
      · rw [if_neg hd]
        exact Bool.not_eq_true _ |>.mp hd

theorem mem_collapseFuel : ∀ (fuel : Nat) (l : List Char) (c : Char),
    c ∈ collapseFuel fuel l → c ∈ l
  | 0, l, c, h => h
  | fuel + 1, l, c, h => by
      unfold collapseFuel at h
      by_cases hd : hasDbl l = true
      · rw [if_pos hd] at h
        exact mem_collapseStep l c (mem_collapseFuel fuel (collapseStep l) c h)
      · rwa [if_neg hd] at h

theorem hasDbl_append (t : List Char) :
    ∀ l : List Char, hasDbl l = true → hasDbl (l ++ t) = true
  | [], h => by simp [hasDbl] at h
  | [a], h => by simp [hasDbl] at h
  | a :: b :: rest, h => by
      simp only [hasDbl, Bool.or_eq_true] at h
      rcases h with h | h
      · simp [hasDbl, h]
      · have := hasDbl_append t (b :: rest) h
        simp only [List.cons_append] at this ⊢
        simp only [hasDbl, Bool.or_eq_true]
        right
        simpa using this

theorem hasDbl_of_pre (l1 l2 : List Char) (hp : l1 <+: l2) (h : hasDbl l1 = true) :
    hasDbl l2 = true := by
  obtain ⟨t, rfl⟩ := hp
  exact hasDbl_append t l1 h

theorem hasDbl_dropWhile (p : Char → Bool) :
    ∀ l : List Char, hasDbl (l.dropWhile p) = true → hasDbl l = true
  | [], h => h
  | a :: rest, h => by
      rw [List.dropWhile_cons] at h
      by_cases ha : p a = true
      · rw [if_pos ha] at h
        exact hasDbl_cons a rest (hasDbl_dropWhile p rest h)
      · rwa [if_neg ha] at h

theorem head_dropWhile (p : Char → Bool) :
    ∀ (l : List Char) (c : Char), (l.dropWhile p).head? = some c → p c = false
  | [], c, h => by simp at h
  | a :: rest, c, h => by
      rw [List.dropWhile_cons] at h
      by_cases ha : p a = true
      · rw [if_pos ha] at h
        exact head_dropWhile p rest c h
      · rw [if_neg ha] at h
        simp only [List.head?_cons, Option.some.injEq] at h
        subst h
        exact Bool.not_eq_true _ |>.mp ha

theorem head_rdropWhile (p : Char → Bool) (l : List Char) (c : Char)
    (h : (List.rdropWhile p l).head? = some c) : l.head? = some c := by
  obtain ⟨t, ht⟩ := List.rdropWhile_prefix p l
  cases hres : List.rdropWhile p l with
  | nil => rw [hres] at h; simp at h
  | cons x r =>
    rw [hres] at h ht
    simp only [List.head?_cons, Option.some.injEq] at h
    subst h
    rw [← ht]
    simp

theorem last_rdropWhile (p : Char → Bool) (l : List Char) (c : Char)
    (h : (List.rdropWhile p l).getLast? = some c) : p c = false := by
  have hne : List.rdropWhile p l ≠ [] := by
    intro hnil
    rw [hnil] at h
    simp at h
  have hlast := List.rdropWhile_last_not p l hne
  rw [List.getLast?_eq_getLast _ hne] at h
  simp only [Option.some.injEq] at h
  subst h
  exact Bool.not_eq_true _ |>.mp hlast

/-- C6.  Text normalization postcondition: for every input string encoded
under a `text` column, the encoded field contains no double quote, no
newline, carriage return or tab (quotes became single quotes, the rest
spaces), contains no run of two or more consecutive spaces, and carries no
leading or trailing whitespace. -/
theorem C6_text_normalization (s : String) :
    formatValue (.str s) "text" = .ok (textNormalize s)
    ∧ (∀ c ∈ (textNormalize s).data, c ≠ '"' ∧ c ≠ '\n' ∧ c ≠ '\r' ∧ c ≠ '\t')
    ∧ hasDbl (textNormalize s).data = false
    ∧ (∀ c, (textNormalize s).data.head? = some c → pyIsSpaceChar c = false)
    ∧ (∀ c, (textNormalize s).data.getLast? = some c → pyIsSpaceChar c = false) := by
  have hdata : (textNormalize s).data
      = List.rdropWhile pyIsSpaceChar
          ((collapseAll (s.data.map charNorm)).dropWhile pyIsSpaceChar) := rfl
  refine ⟨rfl, ?_, ?_, ?_, ?_⟩
  · intro c hc
    rw [hdata] at hc
    have h1 : c ∈ (collapseAll (s.data.map charNorm)).dropWhile pyIsSpaceChar :=
      (List.rdropWhile_prefix _ _).sublist.subset hc
    have h2 : c ∈ collapseAll (s.data.map charNorm) :=
      (List.dropWhile_sublist _).subset h1
    have h3 : c ∈ s.data.map charNorm := mem_collapseFuel _ _ c h2
    obtain ⟨a, -, rfl⟩ := List.mem_map.mp h3
    exact charNorm_ne a
  · rw [hdata]
    apply (Bool.not_eq_true _).mp
    intro htrue
    have hm : hasDbl (collapseAll (s.data.map charNorm)) = true := by
      apply hasDbl_dropWhile pyIsSpaceChar
      exact hasDbl_of_pre _ _ (List.rdropWhile_prefix _ _) htrue
    have hf := hasDbl_collapseFuel (s.data.map charNorm).length (s.data.map charNorm)
      le_rfl
    unfold collapseAll at hm
    rw [hf] at hm
    exact Bool.noConfusion hm
  · intro c hc
    rw [hdata] at hc
    exact head_dropWhile pyIsSpaceChar _ c (head_rdropWhile pyIsSpaceChar _ c hc)
  · intro c hc
    rw [hdata] at hc
    exact last_rdropWhile pyIsSpaceChar _ c hc

end KV
